import Mathlib

/-
Shallow embedding of the growable memory buffer of src/include/pb/memory.h
(namespace pb): the MemoryGrowthPolicy family (Fixed, Exponential, Linear,
Percentage) and the Memory class with its operations (constructor, the
explicit initialization operation, set_growth_policy, set_max_size, read,
write, current_size, and the private grow helper).

Modelling conventions:
- size_t values are Nat; where the C++ code performs size_t arithmetic that
  can wrap (offset + size in read/write, current_size * 2, and
  current_size + current_size / 2 in the policies), the embedding applies
  the explicit modulus W = 2 ^ 64.
- C++ exceptions become an error component: every mutating operation returns
  a pair of an Except result and the post-state, so that the state reached
  at the moment an exception propagates is preserved (as it is in C++,
  where the object outlives the throw).
- calloc and realloc success is an environment parameter
  alloc : Nat -> Bool giving, for each requested byte count, whether the
  allocator satisfies the request.  realloc preserves the old contents
  (the allocation extent equals current_size_ in every reachable state) and
  the code then zero-fills the region [current_size_, new_size).
- The Percentage policy computes current_size * (1 + p / 100) in C++ double
  arithmetic; the embedding uses exact rational arithmetic with a floor
  (the C++ double-to-size_t conversion truncates).  Every theorem below
  that touches this policy depends only on the surrounding
  max(min(., max_size), needed_size) clamp, never on the inner product.
-/

deriving instance DecidableEq for Except

/-- The size_t modulus: sizes and offsets are 64-bit unsigned. -/
def W : Nat := 2 ^ 64

/-- Error taxonomy of the failure modes the C++ code signals by throwing:
allocation failure (calloc or realloc returning null), growth denial (the
Fixed policy throw, a request above max_size_, or capacity saturated at
max_size_), an out-of-range read, and an invalid set_max_size argument. -/
inductive MemError where
  | AllocationFailure
  | GrowthDenied
  | InvalidRange
  | InvalidArgument
deriving DecidableEq

/-- The closed MemoryGrowthPolicy family: Fixed, Exponential, Linear and
Percentage (the latter carrying its growth_percentage_ tunable). -/
inductive GrowthPolicy where
  | fixed
  | exponential
  | linear
  | percentage (growth_percentage : ℚ)
deriving DecidableEq

/-- grow_to_size of each policy.  Fixed throws (Memory growth not allowed);
Exponential returns max(min(current_size * 2, max_size), needed_size);
Linear returns max(min(current_size + current_size / 2, max_size),
needed_size); Percentage returns
max(min(current_size * (1 + p / 100), max_size), needed_size).
The multiplications and the addition wrap in size_t, hence the mod W. -/
def GrowthPolicy.grow_to_size :
    GrowthPolicy → Nat → Nat → Nat → Except MemError Nat
  | .fixed, _, _, _ => .error .GrowthDenied
  | .exponential, needed_size, current_size, max_size =>
      .ok (max (min (current_size * 2 % W) max_size) needed_size)
  | .linear, needed_size, current_size, max_size =>
      .ok (max (min ((current_size + current_size / 2) % W) max_size) needed_size)
  | .percentage p, needed_size, current_size, max_size =>
      .ok (max (min ((Int.floor ((current_size : ℚ) * (1 + p / 100))).toNat % W)
            max_size) needed_size)

/-- The Memory object state: the active growth policy reference, the
allocation (none models data_ == nullptr; some bytes models an allocation
whose extent is current_size_ in every reachable state), and the
initial_size_, max_size_, current_size_ and lazy_init_ fields. -/
structure Memory where
  growth_policy : GrowthPolicy
  data : Option (List Nat)
  initial_size : Nat
  max_size : Nat
  current_size : Nat
  lazy_init : Bool
deriving DecidableEq

/-- The Memory constructor: stores the policy and sizing parameters, leaves
data_ null and current_size_ zero.  SIZE_MAX (the C++ default for max_size)
is W - 1. -/
def Memory.make (growth_policy : GrowthPolicy) (initial_size max_size : Nat)
    (lazy_init : Bool) : Memory :=
  { growth_policy := growth_policy, data := none, initial_size := initial_size
    max_size := max_size, current_size := 0, lazy_init := lazy_init }

/-- The explicit initialization operation.  If already allocated: a no-op
unless force_init, in which case the allocation is freed and current_size_
reset to 0 before an eager re-allocation.  If unallocated: lazy_init_ and
not force_init defers; otherwise calloc(initial_size_, 1) zero-fills and
sets current_size_ = initial_size_, throwing on allocation failure. -/
def Memory.initialize (alloc : Nat → Bool) (m : Memory) (force_init : Bool) :
    Except MemError Unit × Memory :=
  match m.data with
  | some _ =>
      if force_init then
        if alloc m.initial_size then
          (.ok (), { m with data := some (List.replicate m.initial_size 0)
                            current_size := m.initial_size })
        else (.error .AllocationFailure, { m with data := none, current_size := 0 })
      else (.ok (), m)
  | none =>
      if m.lazy_init && !force_init then (.ok (), m)
      else if alloc m.initial_size then
        (.ok (), { m with data := some (List.replicate m.initial_size 0)
                          current_size := m.initial_size })
      else (.error .AllocationFailure, m)

/-- set_growth_policy: the C++ member growth_policy_ is a REFERENCE
(MemoryGrowthPolicy&), and a reference can never be reseated, so
growth_policy_ = growth_policy does not rebind it: it invokes the
implicitly-defined copy assignment of the abstract, memberless base
MemoryGrowthPolicy on the referenced object (the vptr is not copied by
assignment, and any derived tunable such as growth_percentage_ lives
outside the base subobject).  The call is therefore a behavioral no-op:
the buffer keeps consulting the original policy object with its original
dynamic type and tunables, and the state is returned unchanged. -/
def Memory.set_growth_policy (m : Memory) (growth_policy : GrowthPolicy) : Memory :=
  m

/-- set_max_size: throws InvalidArgument when the new maximum is below
current_size_, otherwise replaces max_size_. -/
def Memory.set_max_size (m : Memory) (max_size : Nat) :
    Except MemError Unit × Memory :=
  if max_size < m.current_size then (.error .InvalidArgument, m)
  else (.ok (), { m with max_size := max_size })

/-- The body of grow past the null check: return if needed_size already
fits, throw GrowthDenied above max_size_, consult the policy, throw
GrowthDenied when the policy result is the unchanged current size already
at max_size_, then realloc (preserving the old bytes) and zero-fill
[current_size_, new_size) before publishing current_size_ = new_size. -/
def Memory.growStep (alloc : Nat → Bool) (m : Memory) (needed_size : Nat) :
    Except MemError Unit × Memory :=
  if needed_size ≤ m.current_size then (.ok (), m)
  else if needed_size > m.max_size then (.error .GrowthDenied, m)
  else
    match m.growth_policy.grow_to_size needed_size m.current_size m.max_size with
    | .error e => (.error e, m)
    | .ok new_size =>
        if new_size = m.current_size ∧ new_size = m.max_size then
          (.error .GrowthDenied, m)
        else if alloc new_size then
          (.ok (), { m with
            data := some ((m.data.getD []).take m.current_size ++
              List.replicate (new_size - m.current_size) 0)
            current_size := new_size })
        else (.error .AllocationFailure, m)

/-- grow: when data_ is null, first perform the forced (eager)
initialization, then run the growth body. -/
def Memory.grow (alloc : Nat → Bool) (m : Memory) (needed_size : Nat) :
    Except MemError Unit × Memory :=
  match m.data with
  | none =>
      match Memory.initialize alloc m true with
      | (.error e, m1) => (.error e, m1)
      | (.ok _, m1) => Memory.growStep alloc m1 needed_size
  | some _ => Memory.growStep alloc m needed_size

/-- The memcpy of write: splice bytes into the allocation at offset.
Leaves current_size_ untouched. -/
def Memory.writeBytes (m : Memory) (bytes : List Nat) (offset : Nat) : Memory :=
  { m with data := m.data.map fun l =>
      l.take offset ++ bytes ++ l.drop (offset + bytes.length) }

/-- write(buffer, size, offset): when the wrapped sum offset + size exceeds
current_size_, grow to it first; then copy and return size. -/
def Memory.write (alloc : Nat → Bool) (m : Memory) (bytes : List Nat)
    (offset : Nat) : Except MemError Nat × Memory :=
  if (offset + bytes.length) % W > m.current_size then
    match Memory.grow alloc m ((offset + bytes.length) % W) with
    | (.error e, m1) => (.error e, m1)
    | (.ok _, m1) => (.ok bytes.length, Memory.writeBytes m1 bytes offset)
  else (.ok bytes.length, Memory.writeBytes m bytes offset)

/-- read(buffer, size, offset): throws out_of_range when the wrapped sum
offset + size exceeds current_size_, otherwise copies the bytes out.  The
state is returned unchanged (read mutates nothing). -/
def Memory.read (m : Memory) (size offset : Nat) :
    Except MemError (List Nat) × Memory :=
  if (offset + size) % W > m.current_size then (.error .InvalidRange, m)
  else (.ok (((m.data.getD []).drop offset).take size), m)

/-- Well-formedness of reachable states: the allocation extent equals
current_size_ (an absent allocation counts as extent 0). -/
def Memory.wf (m : Memory) : Prop := (m.data.getD []).length = m.current_size

instance (m : Memory) : Decidable m.wf :=
  inferInstanceAs (Decidable ((m.data.getD []).length = m.current_size))

/-- An allocator environment in which every request succeeds. -/
def allocAlways : Nat → Bool := fun _ => true

/-- The state an eager (or forced) initialization publishes when calloc
succeeds: a zero-filled allocation of initial_size bytes. -/
def Memory.postInit (m : Memory) : Memory :=
  { m with data := some (List.replicate m.initial_size 0)
           current_size := m.initial_size }

/-- A Fixed-policy buffer already allocated at 10 bytes, unbounded ceiling. -/
def memFixed10 : Memory := ⟨.fixed, some (List.replicate 10 0), 10, W - 1, 10, false⟩

/-- An Exponential-policy buffer already allocated at 4 bytes. -/
def memExp4 : Memory := ⟨.exponential, some (List.replicate 4 0), 4, W - 1, 4, false⟩

/-- The state of memExp4 after a successful write of [1, 2, 3] at offset 2. -/
def memExp4Post : Memory := ⟨.exponential, some [0, 0, 1, 2, 3, 0, 0, 0], 4, W - 1, 8, false⟩

/-- An unallocated buffer with initial_size = 4 and max_size = 4. -/
def memUninit44 : Memory := ⟨.exponential, none, 4, 4, 0, false⟩

/-- A Fixed-policy buffer already allocated at 1024 bytes. -/
def memBig : Memory := ⟨.fixed, some (List.replicate 1024 0), 1024, W - 1, 1024, false⟩

/-- A freshly constructed (unallocated) Fixed buffer, initial_size 1024. -/
def memFresh1024 : Memory := Memory.make .fixed 1024 (W - 1) false

/-- A freshly constructed (unallocated) Fixed buffer, initial_size 10. -/
def memFresh10 : Memory := Memory.make .fixed 10 (W - 1) false

/-- A buffer constructed with initial_size 10 above its max_size 5. -/
def memBadSizes : Memory := Memory.make .fixed 10 5 false

/-- An allocated buffer at 20 bytes whose initial_size is only 10. -/
def memShrink : Memory := ⟨.fixed, some (List.replicate 20 0), 10, W - 1, 20, false⟩

/-- The state of memExp4 after a successful write of six ones at offset 0. -/
def memExp4Grown : Memory :=
  ⟨.exponential, some (List.replicate 6 1 ++ [0, 0]), 4, W - 1, 8, false⟩

theorem grow_to_size_ge_needed (p : GrowthPolicy) (n c mx r : Nat)
    (h : GrowthPolicy.grow_to_size p n c mx = .ok r) : n ≤ r := by
  cases p <;> simp [GrowthPolicy.grow_to_size] at h <;> subst h <;>
    exact Nat.le_max_right _ _

theorem grow_to_size_le_max (p : GrowthPolicy) (n c mx r : Nat)
    (h : GrowthPolicy.grow_to_size p n c mx = .ok r) (hn : n ≤ mx) : r ≤ mx := by
  cases p <;> simp [GrowthPolicy.grow_to_size] at h <;> subst h <;>
    exact Nat.max_le.mpr ⟨Nat.min_le_right _ _, hn⟩

theorem grow_to_size_error (p : GrowthPolicy) (n c mx : Nat) (e : MemError)
    (h : GrowthPolicy.grow_to_size p n c mx = .error e) : e = .GrowthDenied := by
  cases p <;> simp [GrowthPolicy.grow_to_size] at h
  exact h.symm

/-- The three states the initialization operation can leave the object in:
unchanged, fully initialized (postInit), or freed (forced re-initialization
whose calloc failed). -/
theorem init_state_cases (alloc : Nat → Bool) (m : Memory) (force_init : Bool) :
    (( Memory.initialize alloc m force_init).2 = m) ∨
    (( Memory.initialize alloc m force_init).2 = m.postInit) ∨
    (force_init = true ∧
      ( Memory.initialize alloc m force_init).2 = { m with data := none, current_size := 0 }) := by
  obtain ⟨gp, d, i, mx, c, lz⟩ := m
  cases d with
  | none =>
      by_cases hl : (lz && !force_init) = true <;>
        by_cases ha : alloc i = true <;>
        simp [ Memory.initialize, Memory.postInit, hl, ha]
  | some l =>
      by_cases hf : force_init = true <;>
        by_cases ha : alloc i = true <;>
        simp [ Memory.initialize, Memory.postInit, hf, ha]

/-- A successful forced initialization always publishes the postInit state. -/
theorem init_forced_ok (alloc : Nat → Bool) (m : Memory) (u : Unit) (m1 : Memory)
    (h : Memory.initialize alloc m true = (.ok u, m1)) : m1 = m.postInit := by
  obtain ⟨gp, d, i, mx, c, lz⟩ := m
  cases d with
  | none =>
      by_cases ha : alloc i = true <;> simp [ Memory.initialize, ha] at h
      simp [Memory.postInit, ← h]
  | some l =>
      by_cases ha : alloc i = true <;> simp [ Memory.initialize, ha] at h
      simp [Memory.postInit, ← h]

/-- A failed initialization on an unallocated object leaves it unchanged. -/
theorem init_unalloc_err (alloc : Nat → Bool) (m : Memory) (force_init : Bool)
    (e : MemError) (m1 : Memory) (hd : m.data = none)
    (h : Memory.initialize alloc m force_init = (.error e, m1)) : m1 = m := by
  obtain ⟨gp, d, i, mx, c, lz⟩ := m
  simp only at hd
  subst hd
  by_cases hl : (lz && !force_init) = true <;>
    by_cases ha : alloc i = true <;>
    simp [ Memory.initialize, hl, ha] at h
  exact h.2.symm

/-- Complete case analysis of the growth body: no growth needed (the state
is untouched), a failure (the state is untouched), or a successful
reallocation to exactly the capacity the policy computed. -/
theorem growStep_spec (alloc : Nat → Bool) (m : Memory) (needed_size : Nat) :
    (needed_size ≤ m.current_size ∧ Memory.growStep alloc m needed_size = (.ok (), m)) ∨
    (∃ e, Memory.growStep alloc m needed_size = (.error e, m)) ∨
    (m.current_size < needed_size ∧ needed_size ≤ m.max_size ∧
      ∃ new_size, m.growth_policy.grow_to_size needed_size m.current_size m.max_size
          = .ok new_size ∧
        Memory.growStep alloc m needed_size = (.ok (), { m with
          data := some ((m.data.getD []).take m.current_size ++
            List.replicate (new_size - m.current_size) 0)
          current_size := new_size })) := by
  unfold Memory.growStep
  by_cases h1 : needed_size ≤ m.current_size
  · exact Or.inl ⟨h1, by simp [h1]⟩
  · by_cases h2 : needed_size > m.max_size
    · exact Or.inr (Or.inl ⟨.GrowthDenied, by simp [h1, h2]⟩)
    · cases hg : m.growth_policy.grow_to_size needed_size m.current_size m.max_size with
      | error e => exact Or.inr (Or.inl ⟨e, by simp [h1, h2]⟩)
      | ok new_size =>
          by_cases h3 : new_size = m.current_size ∧ new_size = m.max_size
          · refine Or.inr (Or.inl ⟨.GrowthDenied, ?_⟩)
            simp only [if_neg h1, if_neg h2]
            rw [if_pos h3]
          · by_cases h4 : alloc new_size = true
            · refine Or.inr (Or.inr ⟨Nat.lt_of_not_le h1, Nat.le_of_not_lt h2,
                new_size, rfl, ?_⟩)
              simp [h1, h2, h3, h4]
            · refine Or.inr (Or.inl ⟨.AllocationFailure, ?_⟩)
              simp [h1, h2, h3, h4]

/-- A failing growth body leaves the state exactly as it was. -/
theorem growStep_err_state (alloc : Nat → Bool) (m : Memory) (needed_size : Nat)
    (e : MemError) (m1 : Memory)
    (h : Memory.growStep alloc m needed_size = (.error e, m1)) : m1 = m := by
  rcases growStep_spec alloc m needed_size with ⟨-, h2⟩ | ⟨e', h2⟩ | ⟨-, -, ns, -, h2⟩ <;>
    rw [h2] at h <;> simp at h
  exact h.2.symm

/-- A successful growth body reaches at least needed_size, never shrinks,
touches no sizing field other than current_size_, and preserves the
allocation-extent invariant. -/
theorem growStep_ok_spec (alloc : Nat → Bool) (m : Memory) (needed_size : Nat)
    (u : Unit) (m1 : Memory)
    (h : Memory.growStep alloc m needed_size = (.ok u, m1)) :
    needed_size ≤ m1.current_size ∧ m.current_size ≤ m1.current_size ∧
    m1.max_size = m.max_size ∧ m1.growth_policy = m.growth_policy ∧
    m1.initial_size = m.initial_size ∧ m1.lazy_init = m.lazy_init ∧
    (m.wf → m1.wf) := by
  rcases growStep_spec alloc m needed_size with ⟨hle, h2⟩ | ⟨e', h2⟩ | ⟨hlt, hmx, ns, hg, h2⟩ <;>
    rw [h2] at h <;> simp at h
  · rw [← h]
    exact ⟨hle, Nat.le_refl _, rfl, rfl, rfl, rfl, fun hw => hw⟩
  · have hns : needed_size ≤ ns := grow_to_size_ge_needed _ _ _ _ _ hg
    rw [← h]
    refine ⟨hns, Nat.le_of_lt (Nat.lt_of_lt_of_le hlt hns), rfl, rfl, rfl, rfl, ?_⟩
    intro hw
    simp [Memory.wf] at hw ⊢
    rw [hw]
    simp [Nat.min_self]
    omega

/-- The growth body never lowers current_size_ and never alters
max_size_, whatever the outcome; within a respected ceiling it also keeps
current_size_ at or below max_size_. -/
theorem growStep_post (alloc : Nat → Bool) (m : Memory) (needed_size : Nat) :
    m.current_size ≤ ((Memory.growStep alloc m needed_size).2).current_size ∧
    ((Memory.growStep alloc m needed_size).2).max_size = m.max_size ∧
    (needed_size ≤ m.max_size → m.current_size ≤ m.max_size →
      ((Memory.growStep alloc m needed_size).2).current_size ≤ m.max_size) := by
  rcases growStep_spec alloc m needed_size with ⟨hle, h2⟩ | ⟨e', h2⟩ | ⟨hlt, hmx, ns, hg, h2⟩ <;>
    rw [h2]
  · exact ⟨Nat.le_refl _, rfl, fun _ hc => hc⟩
  · exact ⟨Nat.le_refl _, rfl, fun _ hc => hc⟩
  · have hns : needed_size ≤ ns := grow_to_size_ge_needed _ _ _ _ _ hg
    exact ⟨Nat.le_of_lt (Nat.lt_of_lt_of_le hlt hns), rfl,
      fun _ _ => grow_to_size_le_max _ _ _ _ _ hg hmx⟩

/-- A failing grow leaves the state as it was, except that on an
unallocated object the implicit eager initialization may already have
published the postInit state before the failure. -/
theorem grow_err_state (alloc : Nat → Bool) (m : Memory) (needed_size : Nat)
    (e : MemError) (m1 : Memory)
    (h : Memory.grow alloc m needed_size = (.error e, m1)) :
    m1 = m ∨ (m.data = none ∧ m1 = m.postInit) := by
  unfold Memory.grow at h
  cases hd : m.data with
  | some l =>
      rw [hd] at h
      exact Or.inl (growStep_err_state _ _ _ _ _ h)
  | none =>
      rw [hd] at h
      rcases hi : Memory.initialize alloc m true with ⟨r, mi⟩
      cases r with
      | error e' =>
          rw [hi] at h
          simp at h
          exact Or.inl (h.2 ▸ init_unalloc_err _ _ _ _ _ hd hi)
      | ok u =>
          rw [hi] at h
          simp at h
          have hpost := init_forced_ok _ _ _ _ hi
          exact Or.inr ⟨rfl, (growStep_err_state _ _ _ _ _ h).trans hpost⟩

/-- A successful grow reaches at least needed_size, never shrinks, touches
no field other than the allocation and current_size_, and preserves the
allocation-extent invariant. -/
theorem grow_ok_spec (alloc : Nat → Bool) (m : Memory) (needed_size : Nat)
    (u : Unit) (m1 : Memory) (hwf : m.wf)
    (h : Memory.grow alloc m needed_size = (.ok u, m1)) :
    m1.wf ∧ needed_size ≤ m1.current_size ∧ m.current_size ≤ m1.current_size ∧
    m1.max_size = m.max_size ∧ m1.growth_policy = m.growth_policy ∧
    m1.initial_size = m.initial_size := by
  unfold Memory.grow at h
  cases hd : m.data with
  | some l =>
      rw [hd] at h
      obtain ⟨ha, hb, hc, hdd, he, hf, hg⟩ := growStep_ok_spec _ _ _ _ _ h
      exact ⟨hg hwf, ha, hb, hc, hdd, he⟩
  | none =>
      rw [hd] at h
      have hcur : m.current_size = 0 := by
        simp [Memory.wf, hd] at hwf
        omega
      rcases hi : Memory.initialize alloc m true with ⟨r, mi⟩
      cases r with
      | error e' => rw [hi] at h; simp at h
      | ok u' =>
          rw [hi] at h
          simp at h
          have hpost := init_forced_ok _ _ _ _ hi
          subst hpost
          have hpwf : (m.postInit).wf := by simp [Memory.wf, Memory.postInit]
          obtain ⟨ha, hb, hc, hdd, he, hf, hg⟩ := growStep_ok_spec _ _ _ _ _ h
          refine ⟨hg hpwf, ha, ?_, ?_, ?_, ?_⟩
          · simp [Memory.postInit] at hb
            omega
          · simpa [Memory.postInit] using hc
          · simpa [Memory.postInit] using hdd
          · simpa [Memory.postInit] using he

/-- grow never lowers current_size_, whatever the outcome, on any state
satisfying the allocation-extent invariant. -/
theorem grow_mono (alloc : Nat → Bool) (m : Memory) (needed_size : Nat)
    (hwf : m.wf) :
    m.current_size ≤ ((Memory.grow alloc m needed_size).2).current_size := by
  unfold Memory.grow
  cases hd : m.data with
  | some l => exact (growStep_post alloc m needed_size).1
  | none =>
      have hcur : m.current_size = 0 := by
        simp [Memory.wf, hd] at hwf
        omega
      rcases hi : Memory.initialize alloc m true with ⟨r, mi⟩
      cases r <;> simp <;> omega

/-- grow never alters max_size_ and, when the requested extent and the
prior size respect the ceiling (with initial_size_ also under it, for the
implicit initialization), keeps current_size_ at or below max_size_. -/
theorem grow_le_max (alloc : Nat → Bool) (m : Memory) (needed_size : Nat)
    (hinit : m.initial_size ≤ m.max_size) (hcur : m.current_size ≤ m.max_size) :
    ((Memory.grow alloc m needed_size).2).max_size = m.max_size ∧
    ((Memory.grow alloc m needed_size).2).current_size ≤ m.max_size := by
  unfold Memory.grow
  cases hd : m.data with
  | some l =>
      obtain ⟨h1, h2, h3⟩ := growStep_post alloc m needed_size
      refine ⟨h2, ?_⟩
      by_cases hn : needed_size ≤ m.max_size
      · exact h3 hn hcur
      · rcases growStep_spec alloc m needed_size with ⟨hle, hq⟩ | ⟨e', hq⟩ | ⟨hlt, hmx, ns, hg, hq⟩ <;>
          rw [hq]
        · exact hcur
        · exact hcur
        · exact absurd hmx hn
  | none =>
      rcases hi : Memory.initialize alloc m true with ⟨r, mi⟩
      cases r with
      | error e' =>
          have : mi = m := init_unalloc_err alloc m true e' mi hd hi
          simp [this, hcur]
      | ok u' =>
          have hpost : mi = m.postInit := init_forced_ok alloc m u' mi hi
          simp only
          obtain ⟨h1, h2, h3⟩ := growStep_post alloc mi needed_size
          have hmimax : mi.max_size = m.max_size := by simp [hpost, Memory.postInit]
          have hmicur : mi.current_size ≤ mi.max_size := by
            simp [hpost, Memory.postInit]
            exact hinit
          refine ⟨by rw [h2, hmimax], ?_⟩
          by_cases hn : needed_size ≤ mi.max_size
          · exact hmimax ▸ h3 hn hmicur
          · rcases growStep_spec alloc mi needed_size with ⟨hle, hq⟩ | ⟨e', hq⟩ | ⟨hlt, hmx, ns, hg, hq⟩ <;>
              rw [hq]
            · exact hmimax ▸ hmicur
            · exact hmimax ▸ hmicur
            · exact absurd hmx hn

/-- Reading back the exact region that a memcpy spliced in recovers the
bytes that were written. -/
theorem splice_extract (l bytes : List Nat) (offset : Nat)
    (h : offset + bytes.length ≤ l.length) :
    ((l.take offset ++ bytes ++ l.drop (offset + bytes.length)).drop offset).take
      bytes.length = bytes := by
  have h1 : (l.take offset).length = offset := List.length_take_of_le (by omega)
  have h2 := List.drop_left (l.take offset) (bytes ++ l.drop (offset + bytes.length))
  rw [h1] at h2
  rw [List.append_assoc, h2, List.take_left]

/-- writeBytes changes no field but the allocation contents. -/
theorem writeBytes_fields (m : Memory) (bytes : List Nat) (offset : Nat) :
    (m.writeBytes bytes offset).current_size = m.current_size ∧
    (m.writeBytes bytes offset).max_size = m.max_size ∧
    (m.writeBytes bytes offset).growth_policy = m.growth_policy ∧
    (m.writeBytes bytes offset).initial_size = m.initial_size := by
  simp [Memory.writeBytes]

/-- Reading the spliced region of a writeBytes result returns the written
bytes and leaves the state unchanged (an in-bounds copy on a state
satisfying the allocation-extent invariant). -/
theorem read_writeBytes (m : Memory) (bytes : List Nat) (offset : Nat)
    (hwf : m.wf) (hle : offset + bytes.length ≤ m.current_size)
    (hW : offset + bytes.length < W) :
    Memory.read (m.writeBytes bytes offset) bytes.length offset
      = (.ok bytes, m.writeBytes bytes offset) := by
  have hmod : (offset + bytes.length) % W = offset + bytes.length :=
    Nat.mod_eq_of_lt hW
  cases hd : m.data with
  | none =>
      have hcur : m.current_size = 0 := by
        simp [Memory.wf, hd] at hwf
        omega
      have hb : bytes = [] := by
        have : bytes.length = 0 := by omega
        exact List.eq_nil_of_length_eq_zero this
      subst hb
      have hoff : offset = 0 := by simp at hle; omega
      subst hoff
      simp [Memory.read, Memory.writeBytes, hd, hcur]
  | some l =>
      have hlen : l.length = m.current_size := by
        simp [Memory.wf, hd] at hwf
        exact hwf
      have hcond : ¬ ((offset + bytes.length) % W > (m.writeBytes bytes offset).current_size) := by
        rw [(writeBytes_fields m bytes offset).1, hmod]
        omega
      rw [Memory.read, if_neg hcond]
      simp [Memory.writeBytes, hd]
      rw [← List.append_assoc]
      exact splice_extract l bytes offset (by omega)

/-- read returns the state unchanged, whatever the outcome. -/
theorem read_state (m : Memory) (size offset : Nat) :
    (Memory.read m size offset).2 = m := by
  unfold Memory.read
  split <;> rfl

/-- set_max_size never changes current_size_, whatever the outcome. -/
theorem set_max_size_current (m : Memory) (x : Nat) :
    ((m.set_max_size x).2).current_size = m.current_size := by
  unfold Memory.set_max_size
  split <;> rfl

/-- write never lowers current_size_, whatever the outcome, on any state
satisfying the allocation-extent invariant. -/
theorem write_mono (alloc : Nat → Bool) (m : Memory) (bytes : List Nat)
    (offset : Nat) (hwf : m.wf) :
    m.current_size ≤ ((Memory.write alloc m bytes offset).2).current_size := by
  unfold Memory.write
  by_cases hc : (offset + bytes.length) % W > m.current_size
  · rw [if_pos hc]
    have hm := grow_mono alloc m ((offset + bytes.length) % W) hwf
    rcases hg : Memory.grow alloc m ((offset + bytes.length) % W) with ⟨gr, mg⟩
    rw [hg] at hm
    simp at hm
    cases gr with
    | error e => exact hm
    | ok u => exact hm
  · rw [if_neg hc]
    simp [Memory.writeBytes]

/-- write keeps current_size_ at or below max_size_ whenever initial_size_
and the prior current_size_ respect the ceiling. -/
theorem write_le_max (alloc : Nat → Bool) (m : Memory) (bytes : List Nat)
    (offset : Nat) (hinit : m.initial_size ≤ m.max_size)
    (hcur : m.current_size ≤ m.max_size) :
    ((Memory.write alloc m bytes offset).2).current_size ≤
      ((Memory.write alloc m bytes offset).2).max_size := by
  unfold Memory.write
  by_cases hc : (offset + bytes.length) % W > m.current_size
  · rw [if_pos hc]
    obtain ⟨hm, hc2⟩ := grow_le_max alloc m ((offset + bytes.length) % W) hinit hcur
    rcases hg : Memory.grow alloc m ((offset + bytes.length) % W) with ⟨gr, mg⟩
    rw [hg] at hm hc2
    simp at hm hc2
    cases gr with
    | error e =>
        show mg.current_size ≤ mg.max_size
        omega
    | ok u =>
        show mg.current_size ≤ mg.max_size
        omega
  · rw [if_neg hc]
    simpa [Memory.writeBytes] using hcur

/-- Under an always-succeeding allocator the growth body can only fail by
denying growth. -/
theorem growStep_allocAlways_err (m : Memory) (n : Nat) (e : MemError)
    (m1 : Memory) (h : Memory.growStep allocAlways m n = (.error e, m1)) :
    e = .GrowthDenied := by
  unfold Memory.growStep at h
  split at h
  · simp at h
  · split at h
    · simp at h
      exact h.1.symm
    · split at h
      · rename_i e' hg
        simp at h
        exact h.1 ▸ grow_to_size_error _ _ _ _ _ hg
      · split at h
        · simp at h
          exact h.1.symm
        · split at h
          · simp at h
          · rename_i ha
            simp [allocAlways] at ha

/-- Under an always-succeeding allocator grow can only fail by denying
growth (the implicit initialization cannot fail). -/
theorem grow_allocAlways_err (m : Memory) (n : Nat) (e : MemError) (m1 : Memory)
    (h : Memory.grow allocAlways m n = (.error e, m1)) : e = .GrowthDenied := by
  unfold Memory.grow at h
  cases hd : m.data with
  | some l =>
      rw [hd] at h
      exact growStep_allocAlways_err _ _ _ _ h
  | none =>
      rw [hd] at h
      rcases hi : Memory.initialize allocAlways m true with ⟨r, mi⟩
      cases r with
      | error e' =>
          exfalso
          unfold Memory.initialize at hi
          rw [hd] at hi
          simp [allocAlways] at hi
      | ok u =>
          rw [hi] at h
          simp at h
          exact growStep_allocAlways_err _ _ _ _ h

/-- A successful grow always reaches at least the requested extent. -/
theorem grow_ok_needed (alloc : Nat → Bool) (m : Memory) (n : Nat) (u : Unit)
    (m1 : Memory) (h : Memory.grow alloc m n = (.ok u, m1)) :
    n ≤ m1.current_size := by
  unfold Memory.grow at h
  cases hd : m.data with
  | some l =>
      rw [hd] at h
      exact (growStep_ok_spec _ _ _ _ _ h).1
  | none =>
      rw [hd] at h
      rcases hi : Memory.initialize alloc m true with ⟨r, mi⟩
      cases r with
      | error e' =>
          rw [hi] at h
          simp at h
      | ok u' =>
          rw [hi] at h
          simp only at h
          exact (growStep_ok_spec _ _ _ _ _ h).1

/-- The non-forced initialization never lowers current_size_ on a state
satisfying the allocation-extent invariant. -/
theorem init_noforce_mono (alloc : Nat → Bool) (m : Memory) (hwf : m.wf) :
    m.current_size ≤ (( Memory.initialize alloc m false).2).current_size := by
  obtain ⟨gp, d, i, mx, c, lz⟩ := m
  cases d with
  | some l => simp [ Memory.initialize]
  | none =>
      have hc : c = 0 := by
        simp [Memory.wf] at hwf
        omega
      subst hc
      exact Nat.zero_le _

/-- C3: For each of the Exponential, Linear and Percentage policies,
whenever grow_to_size(needed, current, max) is invoked under the contract
precondition current < needed and needed <= max, the returned capacity r
satisfies needed <= r <= max: a natural formula result below needed
saturates up to needed, and one above max saturates down to max. -/
theorem C3_policy_result_clamped (p : GrowthPolicy) (needed current mx : Nat)
    (hp : p ≠ GrowthPolicy.fixed) (h1 : current < needed) (h2 : needed ≤ mx) :
    ∃ r, GrowthPolicy.grow_to_size p needed current mx = .ok r ∧
      needed ≤ r ∧ r ≤ mx := by
  cases p with
  | fixed => exact absurd rfl hp
  | exponential =>
      exact ⟨_, rfl, Nat.le_max_right _ _, Nat.max_le.mpr ⟨Nat.min_le_right _ _, h2⟩⟩
  | linear =>
      exact ⟨_, rfl, Nat.le_max_right _ _, Nat.max_le.mpr ⟨Nat.min_le_right _ _, h2⟩⟩
  | percentage q =>
      exact ⟨_, rfl, Nat.le_max_right _ _, Nat.max_le.mpr ⟨Nat.min_le_right _ _, h2⟩⟩

/-- Witness for C3 at the Exponential policy on needed 150, current 100,
max 1000 (the spec scenario expecting 200). -/
theorem C3_witness :
    ∃ r, GrowthPolicy.grow_to_size .exponential 150 100 1000 = .ok r ∧
      150 ≤ r ∧ r ≤ 1000 :=
  C3_policy_result_clamped .exponential 150 100 1000 (by decide) (by decide)
    (by decide)

/-- C7 (corrected): read fails with InvalidRange exactly when the wrapped
64-bit sum (offset + size) mod W exceeds current_size (for offset + size
below W this is the mathematical sum), and read leaves the state
unchanged.  The unwrapped reading of the claim fails: see the
counterexample. -/
theorem C7_read_range_check (m : Memory) (size offset : Nat) :
    ((Memory.read m size offset).1 = .error .InvalidRange ↔
      m.current_size < (offset + size) % W) ∧
    (Memory.read m size offset).2 = m := by
  unfold Memory.read
  by_cases h : (offset + size) % W > m.current_size <;> simp [h]

/-- Counterexample to C7 as stated: on a 1024-byte buffer, a read at
offset 2^64 - 1 of size 2 has mathematical sum 2^64 + 1 > 1024 yet is not
rejected, because the size_t sum wraps to 1. -/
theorem C7_counterexample :
    memBig.current_size < (W - 1) + 2 ∧
    ( Memory.read memBig 2 (W - 1)).1 ≠ .error .InvalidRange := by decide

/-- C5: the claim states the intended swap, but the code cannot perform
it: assigning through the reference member growth_policy_ slice-assigns
the memberless base onto the referent, so the active policy never
changes.  set_growth_policy is a no-op on every buffer, and concretely a
Fixed buffer that denies an 11-byte growing write still denies it after
set_growth_policy(exponential) — the claim would have it grow to 20 and
return 11. -/
theorem C5_set_growth_policy_noop (m : Memory) (p : GrowthPolicy) :
    m.set_growth_policy p = m ∧
    m.set_growth_policy p = { m with growth_policy := m.growth_policy } ∧
    (Memory.write allocAlways memFixed10 (List.replicate 11 1) 0).1
      = .error .GrowthDenied ∧
    (Memory.write allocAlways (memFixed10.set_growth_policy .exponential)
      (List.replicate 11 1) 0).1 = .error .GrowthDenied :=
  ⟨rfl, rfl, by decide, by decide⟩

/-- C1 (corrected): for every buffer satisfying the allocation-extent
invariant, with a representable ceiling and offset + len(bytes) at or
below max_size, if the write SUCCEEDS then it returns len(bytes) and a
read of the same range returns the bytes unchanged.  The unconditional
claim fails because a write inside max_size can still be denied (Fixed
policy): see the counterexample. -/
theorem C1_write_read_roundtrip (alloc : Nat → Bool) (m : Memory)
    (bytes : List Nat) (offset r : Nat) (m1 : Memory)
    (hwf : m.wf) (hmax : m.max_size < W)
    (hb : offset + bytes.length ≤ m.max_size)
    (hw : Memory.write alloc m bytes offset = (.ok r, m1)) :
    r = bytes.length ∧ Memory.read m1 bytes.length offset = (.ok bytes, m1) := by
  have hW : offset + bytes.length < W := Nat.lt_of_le_of_lt hb hmax
  have hmod : (offset + bytes.length) % W = offset + bytes.length :=
    Nat.mod_eq_of_lt hW
  unfold Memory.write at hw
  by_cases hc : (offset + bytes.length) % W > m.current_size
  · rw [if_pos hc] at hw
    rcases hg : Memory.grow alloc m ((offset + bytes.length) % W) with ⟨gr, mg⟩
    rw [hg] at hw
    cases gr with
    | error e => simp at hw
    | ok u =>
        simp at hw
        obtain ⟨hr, hm1⟩ := hw
        obtain ⟨hgwf, hgn, -, -, -, -⟩ := grow_ok_spec _ _ _ _ _ hwf hg
        rw [hmod] at hgn
        subst hm1
        exact ⟨hr.symm, read_writeBytes mg bytes offset hgwf hgn hW⟩
  · rw [if_neg hc] at hw
    simp at hw
    obtain ⟨hr, hm1⟩ := hw
    rw [hmod] at hc
    subst hm1
    exact ⟨hr.symm, read_writeBytes m bytes offset hwf (by omega) hW⟩

/-- Counterexample to C1 as stated: a Fixed-policy buffer of 10 bytes with
an unbounded ceiling; the 11-byte write at offset 0 satisfies
offset + len <= max_size yet is denied, and the subsequent read fails
instead of returning the bytes. -/
theorem C1_counterexample :
    0 + (List.replicate 11 1).length ≤ memFixed10.max_size ∧
    (Memory.write allocAlways memFixed10 (List.replicate 11 1) 0).1
      = .error .GrowthDenied ∧
    ( Memory.read ((Memory.write allocAlways memFixed10 (List.replicate 11 1) 0).2)
        (List.replicate 11 1).length 0).1 = .error .InvalidRange := by decide

/-- Witness for C1 on the Exponential buffer memExp4: writing [1, 2, 3] at
offset 2 succeeds, growing to 8 bytes, and reading the range back yields
[1, 2, 3]. -/
theorem C1_witness :
    3 = ([1, 2, 3] : List Nat).length ∧
    Memory.read memExp4Post ([1, 2, 3] : List Nat).length 2
      = (.ok [1, 2, 3], memExp4Post) :=
  C1_write_read_roundtrip allocAlways memExp4 [1, 2, 3] 2 3 memExp4Post
    (by decide) (by decide) (by decide) (by decide)

/-- C2 (corrected): a failing write leaves the buffer exactly as it was —
no previously written byte is modified, nothing is copied, current_size_
keeps its value — except in one case the claim overlooks: on an
unallocated buffer the implicit eager initialization may complete first,
leaving the buffer allocated at initial_size with zero-filled contents
even though the write then fails.  See the counterexample. -/
theorem C2_failed_write_state (alloc : Nat → Bool) (m : Memory)
    (bytes : List Nat) (offset : Nat) (e : MemError) (m1 : Memory)
    (hw : Memory.write alloc m bytes offset = (.error e, m1)) :
    m1 = m ∨ (m.data = none ∧ m1 = m.postInit) := by
  unfold Memory.write at hw
  by_cases hc : (offset + bytes.length) % W > m.current_size
  · rw [if_pos hc] at hw
    rcases hg : Memory.grow alloc m ((offset + bytes.length) % W) with ⟨gr, mg⟩
    rw [hg] at hw
    cases gr with
    | error e' =>
        simp at hw
        exact hw.2 ▸ grow_err_state _ _ _ _ _ hg
    | ok u => simp at hw
  · rw [if_neg hc] at hw
    simp at hw

/-- Counterexample to C2 as stated: an unallocated buffer with
initial_size 4 and max_size 4; a 10-byte write fails with GrowthDenied,
yet current_size has changed from 0 to 4 (the implicit initialization ran
before the failure). -/
theorem C2_counterexample :
    memUninit44.current_size = 0 ∧
    (Memory.write allocAlways memUninit44 (List.replicate 10 1) 0).1
      = .error .GrowthDenied ∧
    ((Memory.write allocAlways memUninit44 (List.replicate 10 1) 0).2).current_size
      = 4 := by decide

/-- Witness for C2 on the unallocated buffer memUninit44, whose failing
write lands in the implicitly-initialized branch of the conclusion. -/
theorem C2_witness :
    (Memory.write allocAlways memUninit44 (List.replicate 10 1) 0).2 = memUninit44 ∨
    (memUninit44.data = none ∧
      (Memory.write allocAlways memUninit44 (List.replicate 10 1) 0).2
        = memUninit44.postInit) :=
  C2_failed_write_state allocAlways memUninit44 (List.replicate 10 1) 0
    .GrowthDenied ((Memory.write allocAlways memUninit44 (List.replicate 10 1) 0).2)
    (by decide)

/-- C6: with the Fixed policy, any write requiring growth beyond the
current allocation fails with GrowthDenied and changes nothing; a write
fully within current bounds succeeds returning its size (any policy); and
concretely, an unallocated Fixed buffer with initial_size 1024 accepts a
4-byte write at offset 0 (return 4, current_size 1024 >= 4) through the
implicit initialization. -/
theorem C6_fixed_policy (m : Memory) (l bytes : List Nat) (offset : Nat)
    (alloc : Nat → Bool) :
    (m.growth_policy = .fixed → m.data = some l →
      (offset + bytes.length) % W > m.current_size →
      Memory.write alloc m bytes offset = (.error .GrowthDenied, m)) ∧
    ((offset + bytes.length) % W ≤ m.current_size →
      (Memory.write alloc m bytes offset).1 = .ok bytes.length) ∧
    (Memory.write allocAlways memFresh1024 [116, 101, 115, 116] 0).1 = .ok 4 ∧
    ((Memory.write allocAlways memFresh1024 [116, 101, 115, 116] 0).2).current_size
      = 1024 := by
  refine ⟨?_, ?_, by decide, by decide⟩
  · intro hp hd hgt
    unfold Memory.write
    rw [if_pos hgt]
    have hgrow : Memory.grow alloc m ((offset + bytes.length) % W)
        = Memory.growStep alloc m ((offset + bytes.length) % W) := by
      unfold Memory.grow
      rw [hd]
    rw [hgrow]
    unfold Memory.growStep
    rw [if_neg (by omega)]
    by_cases hmx : (offset + bytes.length) % W > m.max_size
    · rw [if_pos hmx]
    · rw [if_neg hmx, hp]
      simp [GrowthPolicy.grow_to_size]
  · intro hle
    unfold Memory.write
    rw [if_neg (by omega)]

/-- Witness for C6: the allocated 10-byte Fixed buffer denies an 11-byte
write and is left unchanged. -/
theorem C6_witness :
    Memory.write allocAlways memFixed10 (List.replicate 11 1) 0
      = (.error .GrowthDenied, memFixed10) :=
  (C6_fixed_policy memFixed10 (List.replicate 10 0) (List.replicate 11 1) 0
    allocAlways).1 rfl rfl (by decide)

/-- C9: a zero-length write at an offset beyond current_size is not a
no-op: under an always-succeeding allocator it either enters the growth
path and ends with current_size >= offset (returning 0), or fails with
GrowthDenied — even though zero bytes are copied. -/
theorem C9_zero_length_write (m : Memory) (offset : Nat) (hoW : offset < W)
    (hgt : m.current_size < offset) :
    (∃ m1, Memory.write allocAlways m [] offset = (.error .GrowthDenied, m1)) ∨
    (∃ m1, Memory.write allocAlways m [] offset = (.ok 0, m1) ∧
      offset ≤ m1.current_size) := by
  have hmod : (offset + ([] : List Nat).length) % W = offset := by
    simpa using Nat.mod_eq_of_lt hoW
  unfold Memory.write
  have hc : (offset + ([] : List Nat).length) % W > m.current_size := by
    rw [hmod]
    omega
  rw [if_pos hc]
  rcases hg : Memory.grow allocAlways m ((offset + ([] : List Nat).length) % W)
    with ⟨gr, mg⟩
  cases gr with
  | error e =>
      have he : e = .GrowthDenied := grow_allocAlways_err _ _ _ _ hg
      subst he
      exact Or.inl ⟨mg, rfl⟩
  | ok u =>
      refine Or.inr ⟨Memory.writeBytes mg [] offset, rfl, ?_⟩
      have hn := grow_ok_needed _ _ _ _ _ hg
      rw [hmod] at hn
      simpa [Memory.writeBytes] using hn

/-- Witness for C9: a fresh unallocated Fixed buffer with initial_size 10;
the zero-length write at offset 5 implicitly allocates and satisfies the
requirement. -/
theorem C9_witness :
    (∃ m1, Memory.write allocAlways memFresh10 [] 5 = (.error .GrowthDenied, m1)) ∨
    (∃ m1, Memory.write allocAlways memFresh10 [] 5 = (.ok 0, m1) ∧
      5 ≤ m1.current_size) :=
  C9_zero_length_write memFresh10 5 (by decide) (by decide)

/-- C10: a write on an already-allocated buffer that triggers a successful
growth leaves current_size equal to exactly the capacity the active policy
computed from (needed, old current_size, max_size) — no hidden slack. -/
theorem C10_growth_exact (alloc : Nat → Bool) (m : Memory) (l bytes : List Nat)
    (offset r : Nat) (m1 : Memory) (hd : m.data = some l)
    (hgt : m.current_size < (offset + bytes.length) % W)
    (hw : Memory.write alloc m bytes offset = (.ok r, m1)) :
    ∃ new_size, m.growth_policy.grow_to_size ((offset + bytes.length) % W)
        m.current_size m.max_size = .ok new_size ∧
      m1.current_size = new_size := by
  unfold Memory.write at hw
  rw [if_pos hgt] at hw
  have hgrow : Memory.grow alloc m ((offset + bytes.length) % W)
      = Memory.growStep alloc m ((offset + bytes.length) % W) := by
    unfold Memory.grow
    rw [hd]
  rw [hgrow] at hw
  rcases growStep_spec alloc m ((offset + bytes.length) % W) with
    ⟨hle, hq⟩ | ⟨e', hq⟩ | ⟨hlt, hmx, ns, hg, hq⟩ <;> rw [hq] at hw
  · exact absurd hle (by omega)
  · simp at hw
  · simp at hw
    refine ⟨ns, hg, ?_⟩
    rw [← hw.2]
    simp [Memory.writeBytes]

/-- Witness for C10: memExp4 (allocated, 4 bytes, Exponential) grows to
exactly the policy result 8 under a 6-byte write. -/
theorem C10_witness :
    ∃ new_size, memExp4.growth_policy.grow_to_size
        ((0 + (List.replicate 6 1).length) % W) memExp4.current_size
        memExp4.max_size = .ok new_size ∧
      memExp4Grown.current_size = new_size :=
  C10_growth_exact allocAlways memExp4 (List.replicate 4 0) (List.replicate 6 1)
    0 6 memExp4Grown (by decide) (by decide) (by decide)

/-- C4 (corrected): current_size <= max_size is preserved by every single
operation PROVIDED initial_size <= max_size; the unconditional claim fails
because the initialization operation sets current_size = initial_size with
no check against max_size (see the counterexample). -/
theorem C4_current_le_max (m : Memory) (alloc : Nat → Bool) (force_init : Bool)
    (bytes : List Nat) (offset size x : Nat) (p : GrowthPolicy)
    (hinit : m.initial_size ≤ m.max_size) (hcur : m.current_size ≤ m.max_size) :
    ((( Memory.initialize alloc m force_init).2).current_size ≤
      (( Memory.initialize alloc m force_init).2).max_size) ∧
    (((Memory.read m size offset).2).current_size ≤
      ((Memory.read m size offset).2).max_size) ∧
    (((Memory.write alloc m bytes offset).2).current_size ≤
      ((Memory.write alloc m bytes offset).2).max_size) ∧
    (((m.set_max_size x).2).current_size ≤ ((m.set_max_size x).2).max_size) ∧
    ((m.set_growth_policy p).current_size ≤ (m.set_growth_policy p).max_size) := by
  refine ⟨?_, ?_, write_le_max alloc m bytes offset hinit hcur, ?_, hcur⟩
  · rcases init_state_cases alloc m force_init with h | h | ⟨-, h⟩ <;> rw [h]
    · exact hcur
    · simpa [Memory.postInit] using hinit
    · exact Nat.zero_le _
  · rw [read_state]
    exact hcur
  · unfold Memory.set_max_size
    by_cases hx : x < m.current_size
    · rw [if_pos hx]
      exact hcur
    · rw [if_neg hx]
      simpa using Nat.le_of_not_lt hx

/-- Counterexample to C4 as stated: a buffer constructed with
initial_size 10 and max_size 5 satisfies the invariant at construction,
but its first initialization sets current_size = 10 > 5 = max_size. -/
theorem C4_counterexample :
    memBadSizes.current_size ≤ memBadSizes.max_size ∧
    (( Memory.initialize allocAlways memBadSizes false).2).current_size = 10 ∧
    (( Memory.initialize allocAlways memBadSizes false).2).max_size = 5 := by
  decide

/-- Witness for C4 on memExp4 with a growing write. -/
theorem C4_witness :
    ((( Memory.initialize allocAlways memExp4 false).2).current_size ≤
      (( Memory.initialize allocAlways memExp4 false).2).max_size) ∧
    (((Memory.read memExp4 2 0).2).current_size ≤
      ((Memory.read memExp4 2 0).2).max_size) ∧
    (((Memory.write allocAlways memExp4 (List.replicate 6 1) 0).2).current_size ≤
      ((Memory.write allocAlways memExp4 (List.replicate 6 1) 0).2).max_size) ∧
    (((memExp4.set_max_size 100).2).current_size ≤
      ((memExp4.set_max_size 100).2).max_size) ∧
    ((memExp4.set_growth_policy .linear).current_size ≤
      (memExp4.set_growth_policy .linear).max_size) :=
  C4_current_le_max memExp4 allocAlways false (List.replicate 6 1) 0 2 100
    .linear (by decide) (by decide)

/-- C8 (corrected): current_size is monotonically non-decreasing across
the non-forced initialization, read, write, set_max_size and
set_growth_policy, whatever the outcome; the only operation that may
decrease it is an explicit forced initialization — but that operation ends
with current_size = initial_size on success (it passes through 0 only
transiently, and stays 0 only if the re-allocation fails), not with 0 as
the claim states.  See the counterexample. -/
theorem C8_monotonic (m : Memory) (hwf : m.wf) (alloc : Nat → Bool)
    (bytes : List Nat) (offset size x : Nat) (p : GrowthPolicy) :
    (m.current_size ≤ (( Memory.initialize alloc m false).2).current_size) ∧
    ((Memory.read m size offset).2 = m) ∧
    (m.current_size ≤ ((Memory.write alloc m bytes offset).2).current_size) ∧
    (((m.set_max_size x).2).current_size = m.current_size) ∧
    ((m.set_growth_policy p).current_size = m.current_size) ∧
    (( Memory.initialize alloc m true).1 = .ok () →
      (( Memory.initialize alloc m true).2).current_size = m.initial_size) := by
  refine ⟨init_noforce_mono alloc m hwf, read_state m size offset,
    write_mono alloc m bytes offset hwf, set_max_size_current m x, rfl, ?_⟩
  intro h
  have heq : Memory.initialize alloc m true
      = (.ok (), ( Memory.initialize alloc m true).2) := by
    rcases hi : Memory.initialize alloc m true with ⟨r, mi⟩
    cases r with
    | error e =>
        rw [hi] at h
        simp at h
    | ok u => rfl
  have hpost := init_forced_ok alloc m () (( Memory.initialize alloc m true).2) heq
  rw [hpost]
  simp [Memory.postInit]

/-- Counterexample to C8 as stated: a forced initialization of an
allocated 20-byte buffer with initial_size 10 succeeds and ends with
current_size = 10 (= initial_size), not 0. -/
theorem C8_counterexample :
    ( Memory.initialize allocAlways memShrink true).1 = .ok () ∧
    (( Memory.initialize allocAlways memShrink true).2).current_size = 10 ∧
    memShrink.current_size = 20 := by decide

/-- Witness for C8 on memExp4 with a growing write and a ceiling change. -/
theorem C8_witness :
    (memExp4.current_size ≤
      (( Memory.initialize allocAlways memExp4 false).2).current_size) ∧
    ((Memory.read memExp4 2 0).2 = memExp4) ∧
    (memExp4.current_size ≤
      ((Memory.write allocAlways memExp4 (List.replicate 6 1) 0).2).current_size) ∧
    (((memExp4.set_max_size 100).2).current_size = memExp4.current_size) ∧
    ((memExp4.set_growth_policy .linear).current_size = memExp4.current_size) ∧
    (( Memory.initialize allocAlways memExp4 true).1 = .ok () →
      (( Memory.initialize allocAlways memExp4 true).2).current_size
        = memExp4.initial_size) :=
  C8_monotonic memExp4 (by decide) allocAlways (List.replicate 6 1) 0 2 100 .linear
